import Mathlib

/-!
Verification of the adaptive multi-pane tiling layout engine
(`VideoGrid` and `MultiTwitchViewer` components).

The width ledger (`streamWidths : Record<string, number>`) is modelled as an
insertion-ordered association list from pane identity (stream username) to a
rational width percentage.  JavaScript numbers are modelled as exact rationals;
`prev[k] || 0` is modelled by `(wlookup prev k).getD 0` (a stored `0` is falsy
and also yields `0`), `prev[k] ?? d` by `(wlookup prev k).getD d`, and the
spread update `{...prev, [k]: v}` by `setW` (existing keys keep their position,
new keys are appended).
-/

namespace Multitwitch

/-- The width ledger: `Record<string, number>` as an insertion-ordered
association list. -/
abbrev Ledger := List (String × ℚ)

/-- Lookup of a key in the ledger (first matching entry). -/
def wlookup : Ledger → String → Option ℚ
  | [], _ => none
  | (k, v) :: t, s => if k = s then some v else wlookup t s

/-- JavaScript object update `{...prev, [k]: v}`: an existing key keeps its
position and gets the new value; a new key is appended at the end. -/
def setW : Ledger → String → ℚ → Ledger
  | [], k, v => [(k, v)]
  | (k', v') :: t, k, v => if k' = k then (k, v) :: t else (k', v') :: setW t k v

/-- `getGridCols` (VideoGrid lines 48-53): number of columns for a pane count. -/
def getGridCols (count : ℕ) : ℕ :=
  if count ≤ 2 then count
  else if count ≤ 4 then 2
  else if count ≤ 9 then 3
  else 4

/-- Initial `streamWidths` state (VideoGrid lines 56-64): each stream gets the
equal share `100 / cols`. -/
def initializeWidths (streams : List String) : Ledger :=
  let cols := getGridCols streams.length
  let equalWidth : ℚ := 100 / (cols : ℚ)
  streams.foldl (fun acc stream => setW acc stream equalWidth) []

/-- The `streamWidths` update effect (VideoGrid lines 69-95): when the column
count derived from the new stream list differs from the column count derived
from the previous ledger's key count, all widths are recalculated to the equal
share; otherwise existing widths are kept by identity (`prev[name] ?? equal`)
and new identities get the equal share.  The new ledger is rebuilt in stream
order from an empty record. -/
def updateWidths (streams : List String) (prev : Ledger) : Ledger :=
  let cols := getGridCols streams.length
  let equalWidth : ℚ := 100 / (cols : ℚ)
  let prevStreamCount := prev.length
  let prevCols := if 0 < prevStreamCount then getGridCols prevStreamCount else 0
  let shouldRecalculateAll := cols ≠ prevCols
  streams.foldl
    (fun acc stream =>
      setW acc stream
        (if shouldRecalculateAll then equalWidth
         else (wlookup prev stream).getD equalWidth)) []

/-- The width-pair adjustment inside `handleStreamResize` (VideoGrid lines
104-133): add the delta to the left width, subtract it from the right width,
then apply the two sequential clamp blocks (left against 15/85 moving the
overflow onto the right, then right against 15/85 moving the overflow onto the
left). -/
def resizeAdjust (leftCurrentWidth rightCurrentWidth deltaPercentage : ℚ) : ℚ × ℚ :=
  let newLeftWidth := leftCurrentWidth + deltaPercentage
  let newRightWidth := rightCurrentWidth - deltaPercentage
  let p1 : ℚ × ℚ :=
    if newLeftWidth < 15 then (15, newRightWidth - (15 - newLeftWidth))
    else if newLeftWidth > 85 then (85, newRightWidth + (newLeftWidth - 85))
    else (newLeftWidth, newRightWidth)
  if p1.2 < 15 then (p1.1 - (15 - p1.2), 15)
  else if p1.2 > 85 then (p1.1 + (p1.2 - 85), 85)
  else p1

/-- `handleStreamResize` (VideoGrid lines 97-148), at the percentage level
(`deltaPercentage = deltaX / containerWidth * 100`): current widths are read
with `|| 0`, the adjusted pair is computed, and the ledger is updated only when
both results are within `[15, 85]` and the left change exceeds the `0.01`
noise floor; otherwise the previous ledger is returned unchanged. -/
def handleStreamResize (leftStreamUsername rightStreamUsername : String)
    (deltaPercentage : ℚ) (prev : Ledger) : Ledger :=
  let leftCurrentWidth := (wlookup prev leftStreamUsername).getD 0
  let rightCurrentWidth := (wlookup prev rightStreamUsername).getD 0
  let p := resizeAdjust leftCurrentWidth rightCurrentWidth deltaPercentage
  if 15 ≤ p.1 ∧ p.1 ≤ 85 ∧ 15 ≤ p.2 ∧ p.2 ≤ 85 ∧
      1 / 100 < |p.1 - leftCurrentWidth| then
    setW (setW prev leftStreamUsername p.1) rightStreamUsername p.2
  else prev

/-- `handleStreamResizeWithAutoFill` (VideoGrid lines 150-178): only the named
stream's width changes, clamped by `max 15 (min (current + delta) 75)`, and
only when the change exceeds the `0.01` noise floor. -/
def handleStreamResizeWithAutoFill (streamUsername : String) (deltaPercentage : ℚ)
    (prev : Ledger) : Ledger :=
  let currentWidth := (wlookup prev streamUsername).getD 0
  let newWidth := max 15 (min (currentWidth + deltaPercentage) 75)
  if 1 / 100 < |newWidth - currentWidth| then setW prev streamUsername newWidth
  else prev

/-- Chunking helper: splits a list into consecutive chunks of size `c + 1`
(the loop `for (i = 0; i < length; i += cols) rows.push(slice(i, i + cols))`
with `cols = c + 1`).  The extra `fuel` argument only makes the recursion
structural; it is called with `fuel = length`, and every step consumes at
least one element, so the fuel never runs out. -/
def chunkFuel (c : ℕ) : ℕ → List String → List (List String)
  | _, [] => []
  | 0, _ :: _ => []
  | fuel + 1, x :: xs => (x :: xs.take c) :: chunkFuel c fuel (xs.drop c)

/-- Chunks of size `c + 1`. -/
def chunkSucc (c : ℕ) (xs : List String) : List (List String) :=
  chunkFuel c xs.length xs

/-- `organizeStreamsIntoRows` (VideoGrid lines 239-248): the stream list is cut
into consecutive rows of `getGridCols streams.length` panes each (the last row
possibly shorter).  For an empty list the loop body never runs. -/
def organizeStreamsIntoRows (streams : List String) : List (List String) :=
  match getGridCols streams.length with
  | 0 => []
  | c + 1 => chunkSucc c streams

/-- `getGridLayout` (VideoGrid lines 228-236): the Tailwind grid class string
for a pane count. -/
def getGridLayout (count : ℕ) : String :=
  if count = 1 then ("grid-cols-1 grid-rows-1")
  else if count = 2 then ("grid-cols-2 grid-rows-1")
  else if count = 3 then ("grid-cols-2 grid-rows-2")
  else if count = 4 then ("grid-cols-2 grid-rows-2")
  else if count ≤ 6 then ("grid-cols-3 grid-rows-2")
  else if count ≤ 9 then ("grid-cols-3 grid-rows-3")
  else ("grid-cols-4 grid-rows-3")

/-- The (rows, columns) pair encoded in one of the class strings produced by
`getGridLayout`. -/
def gridClassShape (s : String) : ℕ × ℕ :=
  if s = ("grid-cols-1 grid-rows-1") then (1, 1)
  else if s = ("grid-cols-2 grid-rows-1") then (1, 2)
  else if s = ("grid-cols-2 grid-rows-2") then (2, 2)
  else if s = ("grid-cols-3 grid-rows-2") then (2, 3)
  else if s = ("grid-cols-3 grid-rows-3") then (3, 3)
  else (3, 4)

/-- `arrayMove` (dnd-kit, called by `handleDragEnd`): remove the element at
`oldIndex` and reinsert it at `newIndex`.  Modelled for in-range indices (the
only way `handleDragEnd` reaches it with both ids present). -/
def arrayMove (array : List String) (oldIndex newIndex : ℕ) : List String :=
  match array[oldIndex]? with
  | some moved => (array.eraseIdx oldIndex).insertIdx newIndex moved
  | none => array

/-- `handleDragEnd` (VideoGrid lines 199-225): with no drop target, or when an
item is dropped on itself, the order is unchanged; otherwise the dragged item
is moved from its index to the drop target's index. -/
def handleDragEnd (streams : List String) (activeId : String)
    (overId : Option String) : List String :=
  match overId with
  | none => streams
  | some o =>
    if activeId = o then streams
    else
      let oldIndex := streams.findIdx (fun s => s = activeId)
      let newIndex := streams.findIdx (fun s => s = o)
      arrayMove streams oldIndex newIndex

/-- The `activeStreamIndex` part of `handleStreamsUpdate` (MultiTwitchViewer
lines 808-828): empty update resets to 0; if the stream previously at the
active index is missing from the old list or absent from the updated list, the
index resets to 0; otherwise the numeric index is left unchanged. -/
def handleStreamsUpdate (streams : List String) (activeStreamIndex : ℕ)
    (updatedStreams : List String) : ℕ :=
  if updatedStreams.length = 0 then 0
  else
    match streams[activeStreamIndex]? with
    | none => 0
    | some currentActiveStream =>
      if currentActiveStream ∈ updatedStreams then activeStreamIndex else 0

/-- JavaScript `value || default` on an optional width: a missing or zero
(falsy) width falls back to the default. -/
def orDefault (o : Option ℚ) (dflt : ℚ) : ℚ :=
  match o with
  | some w => if w = 0 then dflt else w
  | none => dflt

/-- Rendered widths of one row (VideoGrid lines 514-527).  Non-last panes use
`streamWidths[username] || (100 / rowStreams.length)` as their percentage
width.  Modelled from the spec: the row's last pane is rendered `flex-1`
(auto-fill), i.e. it occupies the remaining row space, which is not expressed
as arithmetic in the source; per the spec's auto-fill semantics it equals 100
minus the explicit widths of the earlier panes. -/
def renderedRowWidths (rowStreams : List String) (streamWidths : Ledger) : List ℚ :=
  let explicit := (rowStreams.take (rowStreams.length - 1)).map
    (fun s => orDefault (wlookup streamWidths s) (100 / (rowStreams.length : ℚ)))
  explicit ++ [100 - explicit.sum]

/-- The `onResize` routing of a row's separator at `streamIndex` (VideoGrid
lines 536-553): if the right-hand stream is the row's last, only the left
stream is resized via the auto-fill handler; otherwise both neighbours are
resized via `handleStreamResize`. -/
def separatorOnResize (rowStreams : List String) (streamIndex : ℕ)
    (deltaPercentage : ℚ) (prev : Ledger) : Ledger :=
  let leftStream := rowStreams.getD streamIndex ("")
  let rightStream := rowStreams.getD (streamIndex + 1) ("")
  let isRightStreamLast := streamIndex + 1 = rowStreams.length - 1
  if isRightStreamLast then
    handleStreamResizeWithAutoFill leftStream deltaPercentage prev
  else
    handleStreamResize leftStream rightStream deltaPercentage prev

/-- Claim-side definition, following the spec's words (§3 GridShape): the
(rows, columns) table 1→(1,1); 2→(1,2); 3-4→(2,2); 5-6→(2,3); 7-9→(3,3);
more than 9→(3,4). -/
def specGridShape (n : ℕ) : ℕ × ℕ :=
  if n ≤ 1 then (1, 1)
  else if n = 2 then (1, 2)
  else if n ≤ 4 then (2, 2)
  else if n ≤ 6 then (2, 3)
  else if n ≤ 9 then (3, 3)
  else (3, 4)

/-! ### Concrete pane identities used by witnesses and counterexamples -/

def nameA : String := ("alice")

def nameB : String := ("bob")

def nameC : String := ("carol")

def nameD : String := ("dave")

def nameE : String := ("erin")

/-- Four panes, the 2×2 scenario of the spec. -/
def fourStreams : List String := [nameA, nameB, nameC, nameD]

/-- Thirteen distinct pane identities. -/
def thirteenPanes : List String :=
  [("s01"), ("s02"), ("s03"), ("s04"), ("s05"), ("s06"), ("s07"), ("s08"),
   ("s09"), ("s10"), ("s11"), ("s12"), ("s13")]

/-! ### Ledger lemmas -/

theorem wlookup_setW_self (t : Ledger) (k : String) (v : ℚ) :
    wlookup (setW t k v) k = some v := by
  induction t with
  | nil => simp [setW, wlookup]
  | cons hd t ih =>
    obtain ⟨k', v'⟩ := hd
    by_cases hk : k' = k
    · simp [setW, hk, wlookup]
    · simp [setW, hk, wlookup, ih]

theorem wlookup_setW_ne (t : Ledger) (k s : String) (v : ℚ) (hne : s ≠ k) :
    wlookup (setW t k v) s = wlookup t s := by
  have hks : ¬k = s := fun h => hne h.symm
  induction t with
  | nil => simp [setW, wlookup, hks]
  | cons hd t ih =>
    obtain ⟨k', v'⟩ := hd
    by_cases hk : k' = k
    · subst hk
      simp [setW, wlookup, hks]
    · simp only [setW, if_neg hk, wlookup]
      by_cases hs : k' = s
      · simp [hs]
      · simp [hs, ih]

theorem wlookup_foldl_setW (f : String → ℚ) (ns : List String) (acc : Ledger)
    (p : String) :
    wlookup (ns.foldl (fun a s => setW a s (f s)) acc) p =
      if p ∈ ns then some (f p) else wlookup acc p := by
  induction ns generalizing acc with
  | nil => simp
  | cons s t ih =>
    simp only [List.foldl_cons, ih]
    by_cases hp : p ∈ t
    · simp [hp]
    · by_cases hps : p = s
      · subst hps
        simp [hp, wlookup_setW_self]
      · simp [hp, hps, wlookup_setW_ne _ _ _ _ hps]

theorem wlookup_updateWidths (streams : List String) (prev : Ledger) (p : String) :
    wlookup (updateWidths streams prev) p =
      if p ∈ streams then
        some
          (if getGridCols streams.length ≠
              (if 0 < prev.length then getGridCols prev.length else 0) then
            100 / (getGridCols streams.length : ℚ)
          else (wlookup prev p).getD (100 / (getGridCols streams.length : ℚ)))
      else none := by
  unfold updateWidths
  rw [wlookup_foldl_setW]
  simp [wlookup]

theorem wlookup_initializeWidths (streams : List String) (p : String) :
    wlookup (initializeWidths streams) p =
      if p ∈ streams then some (100 / (getGridCols streams.length : ℚ))
      else none := by
  unfold initializeWidths
  rw [wlookup_foldl_setW (fun _ => 100 / (getGridCols streams.length : ℚ))]
  simp [wlookup]

/-! ### Chunking lemmas -/

theorem chunkFuel_join (c : ℕ) :
    ∀ (fuel : ℕ) (xs : List String), xs.length ≤ fuel →
      (chunkFuel c fuel xs).flatten = xs := by
  intro fuel
  induction fuel with
  | zero =>
    intro xs hxs
    match xs with
    | [] => simp [chunkFuel]
    | x :: t => simp at hxs
  | succ fuel ih =>
    intro xs hxs
    match xs with
    | [] => simp [chunkFuel]
    | x :: t =>
      have hdrop : (t.drop c).length ≤ fuel := by
        simp only [List.length_drop]
        simp only [List.length_cons] at hxs
        omega
      simp [chunkFuel, ih _ hdrop]

theorem chunkFuel_length (c : ℕ) :
    ∀ (fuel : ℕ) (xs : List String), xs.length ≤ fuel →
      (chunkFuel c fuel xs).length = (xs.length + c) / (c + 1) := by
  intro fuel
  induction fuel with
  | zero =>
    intro xs hxs
    match xs with
    | [] =>
      simp [chunkFuel, Nat.div_eq_of_lt (by omega : c < c + 1)]
    | x :: t => simp at hxs
  | succ fuel ih =>
    intro xs hxs
    match xs with
    | [] =>
      simp [chunkFuel, Nat.div_eq_of_lt (by omega : c < c + 1)]
    | x :: t =>
      have hdrop : (t.drop c).length ≤ fuel := by
        simp only [List.length_drop]
        simp only [List.length_cons] at hxs
        omega
      simp only [chunkFuel, List.length_cons, ih _ hdrop, List.length_drop]
      rcases le_or_lt c t.length with h | h
      · rw [Nat.sub_add_cancel h]
        have : t.length + 1 + c = t.length + (c + 1) := by omega
        rw [this, Nat.add_div_right _ (by omega)]
      · have h1 : t.length - c = 0 := by omega
        have h2 : t.length + 1 + c = t.length + (c + 1) := by omega
        rw [h1, h2, Nat.add_div_right _ (Nat.succ_pos c)]
        rw [Nat.div_eq_of_lt (by omega : t.length < c + 1)]
        rw [Nat.zero_add, Nat.div_eq_of_lt (by omega : c < c + 1)]

theorem chunkFuel_mem (c : ℕ) :
    ∀ (fuel : ℕ) (xs : List String), xs.length ≤ fuel →
      ∀ row ∈ chunkFuel c fuel xs, 0 < row.length ∧ row.length ≤ c + 1 := by
  intro fuel
  induction fuel with
  | zero =>
    intro xs hxs row hrow
    match xs with
    | [] => simp [chunkFuel] at hrow
    | x :: t => simp at hxs
  | succ fuel ih =>
    intro xs hxs row hrow
    match xs with
    | [] => simp [chunkFuel] at hrow
    | x :: t =>
      have hdrop : (t.drop c).length ≤ fuel := by
        simp only [List.length_drop]
        simp only [List.length_cons] at hxs
        omega
      simp only [chunkFuel, List.mem_cons] at hrow
      rcases hrow with h | h
      · subst h
        simp only [List.length_cons, List.length_take]
        omega
      · exact ih _ hdrop row h

theorem getGridCols_pos (n : ℕ) (hn : 0 < n) : 0 < getGridCols n := by
  unfold getGridCols
  split_ifs <;> omega

/-! ### Permutation lemmas for the reorder path -/

theorem perm_insertIdx (a : String) :
    ∀ (n : ℕ) (l : List String), n ≤ l.length → (l.insertIdx n a).Perm (a :: l) := by
  intro n
  induction n with
  | zero =>
    intro l _
    rw [List.insertIdx_zero]
  | succ n ih =>
    intro l hl
    match l with
    | [] => simp at hl
    | x :: t =>
      rw [List.insertIdx_succ_cons]
      have ht : n ≤ t.length := by simpa using hl
      exact ((ih t ht).cons x).trans (List.Perm.swap a x t)

theorem perm_cons_eraseIdx :
    ∀ (l : List String) (n : ℕ) (x : String),
      l[n]? = some x → l.Perm (x :: l.eraseIdx n) := by
  intro l
  induction l with
  | nil =>
    intro n x h
    simp at h
  | cons y t ih =>
    intro n x h
    match n with
    | 0 =>
      simp only [List.getElem?_cons_zero, Option.some.injEq] at h
      subst h
      simp [List.eraseIdx]
    | n + 1 =>
      have h' : t[n]? = some x := by simpa using h
      have hperm := (ih n x h').cons y
      simp only [List.eraseIdx_cons_succ]
      exact hperm.trans (List.Perm.swap x y (t.eraseIdx n))

theorem arrayMove_perm (l : List String) (i j : ℕ) (hi : i < l.length)
    (hj : j ≤ l.length - 1) : (arrayMove l i j).Perm l := by
  unfold arrayMove
  have hx : l[i]? = some l[i] := List.getElem?_eq_getElem hi
  rw [hx]
  have hlen : (l.eraseIdx i).length = l.length - 1 := by
    rw [List.length_eraseIdx]
    simp [hi]
  have hper1 : ((l.eraseIdx i).insertIdx j l[i]).Perm (l[i] :: l.eraseIdx i) :=
    perm_insertIdx _ j _ (by omega)
  exact hper1.trans (perm_cons_eraseIdx l i _ hx).symm

/-! ### Arithmetic lemmas for the boundary resize -/

theorem resizeAdjust_sum (l r d : ℚ) :
    (resizeAdjust l r d).1 + (resizeAdjust l r d).2 = l + r := by
  simp only [resizeAdjust]
  split_ifs <;> simp <;> ring

theorem resizeAdjust_fst_sub_le (l r d : ℚ) (hl1 : 15 ≤ l) (hl2 : l ≤ 85)
    (hr1 : 15 ≤ r) (hr2 : r ≤ 85) :
    (resizeAdjust l r d).1 - l ≤ |d| ∧ -|d| ≤ (resizeAdjust l r d).1 - l := by
  have hd1 : d ≤ |d| := le_abs_self d
  have hd2 : -|d| ≤ d := neg_abs_le d
  have hd0 : 0 ≤ |d| := abs_nonneg d
  simp only [resizeAdjust]
  split_ifs <;> constructor <;> simp_all <;> linarith

theorem resizeAdjust_of_inrange (l r d : ℚ) (h1 : 15 ≤ l + d) (h2 : l + d ≤ 85)
    (h3 : 15 ≤ r - d) (h4 : r - d ≤ 85) : resizeAdjust l r d = (l + d, r - d) := by
  simp only [resizeAdjust]
  split_ifs <;> simp_all <;> linarith

theorem handleStreamResize_eval (prev : Ledger) (L R : String) (l r d : ℚ)
    (hL : wlookup prev L = some l) (hR : wlookup prev R = some r)
    (h1 : 15 ≤ l + d) (h2 : l + d ≤ 85) (h3 : 15 ≤ r - d) (h4 : r - d ≤ 85) :
    handleStreamResize L R d prev =
      if 1 / 100 < |d| then setW (setW prev L (l + d)) R (r - d) else prev := by
  simp only [handleStreamResize, hL, hR, Option.getD_some,
    resizeAdjust_of_inrange l r d h1 h2 h3 h4, add_sub_cancel_left]
  by_cases hd : 1 / 100 < |d|
  · rw [if_pos ⟨h1, h2, h3, h4, hd⟩, if_pos hd]
  · rw [if_neg (fun hc => hd hc.2.2.2.2), if_neg hd]

theorem wlookup_mem_keys (prev : Ledger) (p : String)
    (hp : p ∈ prev.map Prod.fst) : ∃ w, wlookup prev p = some w := by
  induction prev with
  | nil => simp at hp
  | cons hd t ih =>
    obtain ⟨k, v⟩ := hd
    simp only [List.map_cons, List.mem_cons] at hp
    by_cases hk : k = p
    · exact ⟨v, by simp [wlookup, hk]⟩
    · rcases hp with h | h
      · exact absurd h.symm hk
      · obtain ⟨w, hw⟩ := ih h
        exact ⟨w, by simp [wlookup, hk, hw]⟩

/-! ### Claim theorems -/

/-- Claim C2: for two panes with explicit in-range widths and any delta, after
`handleStreamResize` both widths lie in [15, 85]; the two actual changes are
equal in magnitude and opposite in sign, and each is no larger in magnitude
than the requested delta (any transfer beyond a bound is applied to neither
side). -/
theorem resizeBoundary_clamped_no_overflow_leak
    (prev : Ledger) (L R : String) (l r d : ℚ) (hne : L ≠ R)
    (hL : wlookup prev L = some l) (hR : wlookup prev R = some r)
    (hl1 : 15 ≤ l) (hl2 : l ≤ 85) (hr1 : 15 ≤ r) (hr2 : r ≤ 85) :
    ∃ l' r', wlookup (handleStreamResize L R d prev) L = some l' ∧
      wlookup (handleStreamResize L R d prev) R = some r' ∧
      15 ≤ l' ∧ l' ≤ 85 ∧ 15 ≤ r' ∧ r' ≤ 85 ∧
      l' - l = -(r' - r) ∧ |l' - l| ≤ |d| := by
  have hsum := resizeAdjust_sum l r d
  have hchange := resizeAdjust_fst_sub_le l r d hl1 hl2 hr1 hr2
  simp only [handleStreamResize, hL, hR, Option.getD_some]
  split_ifs with hg
  · obtain ⟨g1, g2, g3, g4, g5⟩ := hg
    refine ⟨(resizeAdjust l r d).1, (resizeAdjust l r d).2, ?_, ?_,
      g1, g2, g3, g4, by linarith, ?_⟩
    · rw [wlookup_setW_ne _ _ _ _ hne, wlookup_setW_self]
    · rw [wlookup_setW_self]
    · rw [abs_le]
      exact ⟨hchange.2, hchange.1⟩
  · exact ⟨l, r, hL, hR, hl1, hl2, hr1, hr2, by ring,
      by simp [sub_self, abs_nonneg]⟩

/-- Witness for C2: two 50/50 panes dragged by +40 percentage points. -/
theorem resizeBoundary_clamped_no_overflow_leak_witness :
    ∃ l' r',
      wlookup (handleStreamResize nameA nameB 40 [(nameA, 50), (nameB, 50)]) nameA =
        some l' ∧
      wlookup (handleStreamResize nameA nameB 40 [(nameA, 50), (nameB, 50)]) nameB =
        some r' ∧
      15 ≤ l' ∧ l' ≤ 85 ∧ 15 ≤ r' ∧ r' ≤ 85 ∧
      l' - 50 = -(r' - 50) ∧ |l' - 50| ≤ |(40 : ℚ)| :=
  resizeBoundary_clamped_no_overflow_leak [(nameA, 50), (nameB, 50)] nameA nameB
    50 50 40 (by decide) (by decide) (by decide)
    (by norm_num) (by norm_num) (by norm_num) (by norm_num)

/-- Claim C3: `resizeBoundary(A, B, +d)` followed by `resizeBoundary(A, B, -d)`
restores both panes' widths, provided no bound is hit mid-sequence (all
unclamped intermediate widths stay within [15, 85]). -/
theorem resizeBoundary_roundtrip_restores
    (prev : Ledger) (L R : String) (l r d : ℚ) (hne : L ≠ R)
    (hL : wlookup prev L = some l) (hR : wlookup prev R = some r)
    (h1 : 15 ≤ l + d) (h2 : l + d ≤ 85) (h3 : 15 ≤ r - d) (h4 : r - d ≤ 85)
    (h5 : 15 ≤ l - d) (h6 : l - d ≤ 85) (h7 : 15 ≤ r + d) (h8 : r + d ≤ 85) :
    wlookup (handleStreamResize L R (-d) (handleStreamResize L R d prev)) L =
      some l ∧
    wlookup (handleStreamResize L R (-d) (handleStreamResize L R d prev)) R =
      some r := by
  have e1 := handleStreamResize_eval prev L R l r d hL hR h1 h2 h3 h4
  by_cases hd : 1 / 100 < |d|
  · rw [if_pos hd] at e1
    have hL' : wlookup (handleStreamResize L R d prev) L = some (l + d) := by
      rw [e1, wlookup_setW_ne _ _ _ _ hne, wlookup_setW_self]
    have hR' : wlookup (handleStreamResize L R d prev) R = some (r - d) := by
      rw [e1, wlookup_setW_self]
    have e2 := handleStreamResize_eval (handleStreamResize L R d prev) L R
      (l + d) (r - d) (-d) hL' hR'
      (by rw [add_neg_cancel_right]; linarith)
      (by rw [add_neg_cancel_right]; linarith)
      (by rw [sub_neg_eq_add, sub_add_cancel]; linarith)
      (by rw [sub_neg_eq_add, sub_add_cancel]; linarith)
    rw [abs_neg] at e2
    rw [if_pos hd] at e2
    rw [e2, add_neg_cancel_right, sub_neg_eq_add, sub_add_cancel]
    constructor
    · rw [wlookup_setW_ne _ _ _ _ hne, wlookup_setW_self]
    · rw [wlookup_setW_self]
  · rw [if_neg hd] at e1
    rw [e1]
    have e2 := handleStreamResize_eval prev L R l r (-d) hL hR
      (by rw [← sub_eq_add_neg]; exact h5)
      (by rw [← sub_eq_add_neg]; exact h6)
      (by rw [sub_neg_eq_add]; exact h7)
      (by rw [sub_neg_eq_add]; exact h8)
    rw [abs_neg] at e2
    rw [if_neg hd] at e2
    rw [e2]
    exact ⟨hL, hR⟩

/-- Witness for C3: 50/50 panes, delta +10, then -10. -/
theorem resizeBoundary_roundtrip_restores_witness :
    wlookup (handleStreamResize nameA nameB (-10)
      (handleStreamResize nameA nameB 10 [(nameA, 50), (nameB, 50)])) nameA =
      some 50 ∧
    wlookup (handleStreamResize nameA nameB (-10)
      (handleStreamResize nameA nameB 10 [(nameA, 50), (nameB, 50)])) nameB =
      some 50 :=
  resizeBoundary_roundtrip_restores [(nameA, 50), (nameB, 50)] nameA nameB
    50 50 10 (by decide) (by decide) (by decide)
    (by norm_num) (by norm_num) (by norm_num) (by norm_num)
    (by norm_num) (by norm_num) (by norm_num) (by norm_num)

/-- Claim C10: for two distinct pane ids present in the ledger,
`handleStreamResize` either returns the ledger unchanged, or changes exactly
the two named entries and the sum of their widths is conserved. -/
theorem resizeBoundary_frame_and_sum_conservation
    (prev : Ledger) (L R : String) (l r d : ℚ) (hne : L ≠ R)
    (hL : wlookup prev L = some l) (hR : wlookup prev R = some r) :
    handleStreamResize L R d prev = prev ∨
      (∃ l' r', wlookup (handleStreamResize L R d prev) L = some l' ∧
        wlookup (handleStreamResize L R d prev) R = some r' ∧
        l' + r' = l + r ∧ l' ≠ l ∧ r' ≠ r ∧
        ∀ k, k ≠ L → k ≠ R →
          wlookup (handleStreamResize L R d prev) k = wlookup prev k) := by
  have hsum := resizeAdjust_sum l r d
  simp only [handleStreamResize, hL, hR, Option.getD_some]
  split_ifs with hg
  · right
    obtain ⟨g1, g2, g3, g4, g5⟩ := hg
    refine ⟨(resizeAdjust l r d).1, (resizeAdjust l r d).2, ?_, ?_, hsum, ?_, ?_, ?_⟩
    · rw [wlookup_setW_ne _ _ _ _ hne, wlookup_setW_self]
    · rw [wlookup_setW_self]
    · intro h
      rw [h] at g5
      norm_num at g5
    · intro h
      have hfst : (resizeAdjust l r d).1 = l := by linarith
      rw [hfst] at g5
      norm_num at g5
    · intro k hkL hkR
      rw [wlookup_setW_ne _ _ _ _ hkR, wlookup_setW_ne _ _ _ _ hkL]
  · left
    rfl

/-- Witness for C10: two 50/50 panes and a +40 delta (the update branch). -/
theorem resizeBoundary_frame_and_sum_conservation_witness :
    handleStreamResize nameA nameB 40 [(nameA, 50), (nameB, 50)] =
        [(nameA, 50), (nameB, 50)] ∨
      (∃ l' r',
        wlookup (handleStreamResize nameA nameB 40 [(nameA, 50), (nameB, 50)])
          nameA = some l' ∧
        wlookup (handleStreamResize nameA nameB 40 [(nameA, 50), (nameB, 50)])
          nameB = some r' ∧
        l' + r' = 50 + 50 ∧ l' ≠ 50 ∧ r' ≠ 50 ∧
        ∀ k, k ≠ nameA → k ≠ nameB →
          wlookup (handleStreamResize nameA nameB 40 [(nameA, 50), (nameB, 50)]) k =
            wlookup [(nameA, 50), (nameB, 50)] k) :=
  resizeBoundary_frame_and_sum_conservation [(nameA, 50), (nameB, 50)] nameA nameB
    50 50 40 (by decide) (by decide) (by decide)

/-- Claim C1: on a pane-set change with unchanged derived column count, every
previously present pane keeps exactly its previous explicit width (by
identity, regardless of order), and every pane with a previously unknown
identity receives the equal share 100/columns; when the column count differs,
every pane is reset to the equal share.  `ps` is the previous pane set, whose
identities are the previous ledger's keys. -/
theorem widthLedger_paneSetChange
    (ps ns : List String) (prev : Ledger) (hkeys : prev.map Prod.fst = ps) :
    (0 < ps.length → getGridCols ns.length = getGridCols ps.length →
      (∀ p ∈ ns, ∀ w, wlookup prev p = some w →
        wlookup (updateWidths ns prev) p = some w) ∧
      (∀ p ∈ ns, wlookup prev p = none →
        wlookup (updateWidths ns prev) p =
          some (100 / (getGridCols ns.length : ℚ)))) ∧
    ((if 0 < ps.length then getGridCols ps.length else 0) ≠ getGridCols ns.length →
      ∀ p ∈ ns, wlookup (updateWidths ns prev) p =
        some (100 / (getGridCols ns.length : ℚ))) := by
  have hlen : prev.length = ps.length := by
    rw [← hkeys, List.length_map]
  constructor
  · intro hpos hcols
    have hcond : ¬(getGridCols ns.length ≠
        (if 0 < prev.length then getGridCols prev.length else 0)) := by
      rw [hlen, if_pos hpos, hcols]
      simp
    constructor
    · intro p hp w hw
      rw [wlookup_updateWidths, if_pos hp, if_neg hcond, hw]
      rfl
    · intro p hp hw
      rw [wlookup_updateWidths, if_pos hp, if_neg hcond, hw]
      rfl
  · intro hne p hp
    have hcond : getGridCols ns.length ≠
        (if 0 < prev.length then getGridCols prev.length else 0) := by
      rw [hlen]
      exact fun h => hne h.symm
    rw [wlookup_updateWidths, if_pos hp, if_pos hcond]

/-- Witness for C1: previous panes [alice, bob] with widths 60/40; new set
[bob, alice, carol] keeps the column count at 2, so alice keeps 60, bob keeps
40, and the new pane carol gets the equal share 50. -/
theorem widthLedger_paneSetChange_witness :
    wlookup (updateWidths [nameB, nameA, nameC] [(nameA, 60), (nameB, 40)])
      nameA = some 60 ∧
    wlookup (updateWidths [nameB, nameA, nameC] [(nameA, 60), (nameB, 40)])
      nameB = some 40 ∧
    wlookup (updateWidths [nameB, nameA, nameC] [(nameA, 60), (nameB, 40)])
      nameC = some 50 := by
  have h := widthLedger_paneSetChange [nameA, nameB] [nameB, nameA, nameC]
    [(nameA, 60), (nameB, 40)] (by decide)
  have h1 := h.1 (by decide) (by decide)
  refine ⟨h1.1 nameA (by decide) 60 (by decide),
    h1.1 nameB (by decide) 40 (by decide), ?_⟩
  have h2 := h1.2 nameC (by decide) (by decide)
  have hval : (100 / ((getGridCols ([nameB, nameA, nameC] : List String).length :
      ℕ) : ℚ)) = 50 := by
    norm_num [getGridCols]
  rw [hval] at h2
  exact h2

/-- Claim C5: drag-and-drop reordering (same pane set, hence same pane count
and column count) produces a permutation of the pane order and leaves every
pane's Width Ledger entry unchanged. -/
theorem reorder_preserves_widths
    (ps : List String) (prev : Ledger) (activeId overId : String)
    (hkeys : prev.map Prod.fst = ps)
    (hact : activeId ∈ ps) (hover : overId ∈ ps) :
    (handleDragEnd ps activeId (some overId)).Perm ps ∧
    ∀ p ∈ ps,
      wlookup (updateWidths (handleDragEnd ps activeId (some overId)) prev) p =
        wlookup prev p := by
  have hperm : (handleDragEnd ps activeId (some overId)).Perm ps := by
    unfold handleDragEnd
    by_cases he : activeId = overId
    · simp [he]
    · simp only [if_neg he]
      have hi : ps.findIdx (fun s => s = activeId) < ps.length := by
        apply List.findIdx_lt_length_of_exists
        exact ⟨activeId, hact, by simp⟩
      have hj : ps.findIdx (fun s => s = overId) < ps.length := by
        apply List.findIdx_lt_length_of_exists
        exact ⟨overId, hover, by simp⟩
      exact arrayMove_perm ps _ _ hi (by omega)
  refine ⟨hperm, ?_⟩
  have hlen : prev.length = ps.length := by
    rw [← hkeys, List.length_map]
  have hnslen : (handleDragEnd ps activeId (some overId)).length = ps.length :=
    hperm.length_eq
  have hpos : 0 < ps.length := List.length_pos_of_mem hact
  have hcond : ¬(getGridCols (handleDragEnd ps activeId (some overId)).length ≠
      (if 0 < prev.length then getGridCols prev.length else 0)) := by
    rw [hlen, if_pos hpos, hnslen]
    simp
  intro p hp
  have hpns : p ∈ handleDragEnd ps activeId (some overId) :=
    hperm.mem_iff.mpr hp
  rw [wlookup_updateWidths, if_pos hpns, if_neg hcond]
  obtain ⟨w, hw⟩ := wlookup_mem_keys prev p (by rw [hkeys]; exact hp)
  rw [hw]
  rfl

/-- Witness for C5: [alice, bob, carol, dave] with customized widths; dragging
alice onto carol reorders the panes and leaves all four width entries
unchanged. -/
theorem reorder_preserves_widths_witness :
    (handleDragEnd [nameA, nameB, nameC, nameD] nameA (some nameC)).Perm
      [nameA, nameB, nameC, nameD] ∧
    ∀ p ∈ [nameA, nameB, nameC, nameD],
      wlookup (updateWidths (handleDragEnd [nameA, nameB, nameC, nameD] nameA
        (some nameC)) [(nameA, 30), (nameB, 70), (nameC, 45), (nameD, 55)]) p =
        wlookup [(nameA, 30), (nameB, 70), (nameC, 45), (nameD, 55)] p :=
  reorder_preserves_widths [nameA, nameB, nameC, nameD]
    [(nameA, 30), (nameB, 70), (nameC, 45), (nameD, 55)] nameA nameC
    (by decide) (by decide) (by decide)

/-- Counterexample to claim C4 as stated: a pane whose stored width is 75.005
(inside the ledger's global [15, 85] range, reachable via a boundary resize)
keeps that width under `handleStreamResizeWithAutoFill` with delta 0, because
the clamped value 75 differs from it by only 0.005 ≤ 0.01 (the noise floor),
so the resulting width is not in [15, 75]. -/
theorem autofill_ceiling_counterexample :
    wlookup (handleStreamResizeWithAutoFill nameA 0 [(nameA, 15001 / 200)])
      nameA = some (15001 / 200) ∧
    ¬((15001 / 200 : ℚ) ≤ 75) := by
  constructor
  · have habs : |(1 : ℚ) / 200| = 1 / 200 := abs_of_nonneg (by norm_num)
    norm_num [handleStreamResizeWithAutoFill, wlookup, habs]
  · norm_num

/-- Claim C4 (amended): `handleStreamResizeWithAutoFill` never changes any
other pane's entry; whenever the clamped value differs from the current width
by more than the 0.01 noise floor, the dragged pane's entry is set to the
clamped value, which lies in [15, 75]; otherwise the ledger is returned
unchanged (so a pre-existing width outside [15, 75] can persist). -/
theorem autofill_frame_and_clamp (prev : Ledger) (k : String) (d : ℚ) :
    (∀ p, p ≠ k →
      wlookup (handleStreamResizeWithAutoFill k d prev) p = wlookup prev p) ∧
    (1 / 100 <
        |max 15 (min ((wlookup prev k).getD 0 + d) 75) - (wlookup prev k).getD 0| →
      wlookup (handleStreamResizeWithAutoFill k d prev) k =
        some (max 15 (min ((wlookup prev k).getD 0 + d) 75)) ∧
      15 ≤ max 15 (min ((wlookup prev k).getD 0 + d) 75) ∧
      max 15 (min ((wlookup prev k).getD 0 + d) 75) ≤ 75) ∧
    (¬(1 / 100 <
        |max 15 (min ((wlookup prev k).getD 0 + d) 75) - (wlookup prev k).getD 0|) →
      handleStreamResizeWithAutoFill k d prev = prev) := by
  refine ⟨?_, ?_, ?_⟩
  · intro p hp
    simp only [handleStreamResizeWithAutoFill]
    split_ifs with h
    · exact wlookup_setW_ne _ _ _ _ hp
    · rfl
  · intro h
    simp only [handleStreamResizeWithAutoFill]
    rw [if_pos h]
    exact ⟨wlookup_setW_self _ _ _, le_max_left _ _,
      max_le (by norm_num) (min_le_right _ _)⟩
  · intro h
    simp only [handleStreamResizeWithAutoFill]
    rw [if_neg h]

/-- Witness for the amended C4: pane alice at 50 dragged by +100 is clamped to
75 while bob's entry is untouched. -/
theorem autofill_frame_and_clamp_witness :
    wlookup (handleStreamResizeWithAutoFill nameA 100 [(nameA, 50), (nameB, 50)])
        nameB = wlookup [(nameA, 50), (nameB, 50)] nameB ∧
    wlookup (handleStreamResizeWithAutoFill nameA 100 [(nameA, 50), (nameB, 50)])
        nameA =
      some (max 15
        (min ((wlookup [(nameA, 50), (nameB, 50)] nameA).getD 0 + 100) 75)) := by
  have h := autofill_frame_and_clamp [(nameA, 50), (nameB, 50)] nameA 100
  refine ⟨h.1 nameB (by decide), ?_⟩
  refine (h.2.1 ?_).1
  norm_num [wlookup, nameA]

/-- Counterexample to claim C9 as stated: panes [alice, bob, carol] with focus
on bob (index 1).  Removing alice yields [bob, carol]; bob is still present,
but the code keeps the numeric index 1, which now names carol — the focused
identity is not preserved. -/
theorem focusedIndex_identity_counterexample :
    nameB ∈ [nameB, nameC] ∧
    handleStreamsUpdate [nameA, nameB, nameC] 1 [nameB, nameC] = 1 ∧
    [nameB, nameC][handleStreamsUpdate [nameA, nameB, nameC] 1 [nameB, nameC]]? ≠
      some nameB := by decide

/-- Claim C9 (amended): when the pane set shrinks so that the previously
focused pane is no longer present, the focused index is set to 0; when the
focused pane is still present, the numeric index is left unchanged (so the
focused identity is preserved only if no earlier pane was removed). -/
theorem handleStreamsUpdate_focus (streams updated : List String) (idx : ℕ)
    (cur : String) (hcur : streams[idx]? = some cur) (hne : updated ≠ []) :
    (cur ∉ updated → handleStreamsUpdate streams idx updated = 0) ∧
    (cur ∈ updated → handleStreamsUpdate streams idx updated = idx) := by
  have hlen : ¬(updated.length = 0) := fun h => hne (List.length_eq_zero.mp h)
  simp only [handleStreamsUpdate, hcur, if_neg hlen]
  constructor
  · intro h
    rw [if_neg h]
  · intro h
    rw [if_pos h]

/-- Witness for the amended C9: five panes with focus on index 4; removing the
focused pane resets focus to 0, while removing a later-indexed pane than the
focused one keeps the index. -/
theorem handleStreamsUpdate_focus_witness :
    handleStreamsUpdate [nameA, nameB, nameC, nameD, nameE] 4
      [nameA, nameB, nameC, nameD] = 0 ∧
    handleStreamsUpdate [nameA, nameB, nameC, nameD, nameE] 2
      [nameA, nameB, nameC, nameD] = 2 :=
  ⟨(handleStreamsUpdate_focus [nameA, nameB, nameC, nameD, nameE]
      [nameA, nameB, nameC, nameD] 4 nameE (by decide) (by decide)).1 (by decide),
   (handleStreamsUpdate_focus [nameA, nameB, nameC, nameD, nameE]
      [nameA, nameB, nameC, nameD] 2 nameC (by decide) (by decide)).2 (by decide)⟩

/-- Counterexample to claim C6 as stated: the claimed shape for any pane count
above 9 is 3 rows of 4 columns, but with 13 panes `organizeStreamsIntoRows`
produces 4 rows (13 panes row-major in rows of 4), so the claimed fixed row
count does not hold at n = 13. -/
theorem gridShape_claim_counterexample :
    (specGridShape thirteenPanes.length).1 = 3 ∧
    (organizeStreamsIntoRows thirteenPanes).length = 4 ∧
    (organizeStreamsIntoRows thirteenPanes).length ≠
      (specGridShape thirteenPanes.length).1 := by decide

/-- Claim C6 (amended): for every pane count n ≥ 1 the derived column count
follows the fixed thresholds of the claim's table, panes fill rows row-major
in pane order with every row nonempty and at most `cols` wide, the number of
rows is ⌈n / cols⌉, and for n ≤ 12 that row count agrees with the claim's
table; for n > 12 the rendered rows exceed the table's 3 rows. -/
theorem gridShape_thresholds (ss : List String) (hn : 0 < ss.length) :
    getGridCols ss.length = (specGridShape ss.length).2 ∧
    (organizeStreamsIntoRows ss).flatten = ss ∧
    (∀ row ∈ organizeStreamsIntoRows ss,
      0 < row.length ∧ row.length ≤ getGridCols ss.length) ∧
    (organizeStreamsIntoRows ss).length =
      (ss.length + getGridCols ss.length - 1) / getGridCols ss.length ∧
    (ss.length ≤ 12 →
      (organizeStreamsIntoRows ss).length = (specGridShape ss.length).1) := by
  have hpos := getGridCols_pos ss.length hn
  obtain ⟨c, hc⟩ : ∃ c, getGridCols ss.length = c + 1 :=
    ⟨getGridCols ss.length - 1, by omega⟩
  have horg : organizeStreamsIntoRows ss = chunkSucc c ss := by
    unfold organizeStreamsIntoRows
    rw [hc]
  have hlen : (organizeStreamsIntoRows ss).length =
      (ss.length + c) / (c + 1) := by
    rw [horg]
    unfold chunkSucc
    exact chunkFuel_length c ss.length ss le_rfl
  refine ⟨?_, ?_, ?_, ?_, ?_⟩
  · simp only [getGridCols, specGridShape]
    split_ifs <;> simp_all <;> omega
  · rw [horg]
    unfold chunkSucc
    exact chunkFuel_join c ss.length ss le_rfl
  · intro row hrow
    rw [horg] at hrow
    unfold chunkSucc at hrow
    have := chunkFuel_mem c ss.length ss le_rfl row hrow
    rw [hc]
    exact this
  · rw [hlen, hc]
    have heq : ss.length + (c + 1) - 1 = ss.length + c := by omega
    rw [heq]
  · intro h12
    have key : ∀ n < 13, 0 < n →
        (n + getGridCols n - 1) / getGridCols n = (specGridShape n).1 := by decide
    have h := key ss.length (by omega) hn
    rw [hc] at h
    have heq : ss.length + (c + 1) - 1 = ss.length + c := by omega
    rw [heq] at h
    rw [hlen]
    exact h

/-- Witness for the amended C6: the four-pane case, a 2×2 grid filled
row-major. -/
theorem gridShape_thresholds_witness :
    getGridCols fourStreams.length = (specGridShape fourStreams.length).2 ∧
    (organizeStreamsIntoRows fourStreams).flatten = fourStreams ∧
    (∀ row ∈ organizeStreamsIntoRows fourStreams,
      0 < row.length ∧ row.length ≤ getGridCols fourStreams.length) ∧
    (organizeStreamsIntoRows fourStreams).length =
      (fourStreams.length + getGridCols fourStreams.length - 1) /
        getGridCols fourStreams.length ∧
    (fourStreams.length ≤ 12 →
      (organizeStreamsIntoRows fourStreams).length =
        (specGridShape fourStreams.length).1) :=
  gridShape_thresholds fourStreams (by decide)

/-- Claim C7: with 4 panes in the 2×2 grid at equal initial widths, the
separator between the first row's two panes routes to the auto-fill resize; a
drag pushing pane 1 below 15% clamps its width at exactly 15% and the
auto-filling pane 2 renders at exactly 85%; and for every delta, pane 1's
stored width stays in [15, 75] so pane 2's rendered width never exceeds
85%. -/
theorem fourPane_first_row_clamp (d : ℚ) (hd : 50 + d < 15) :
    (organizeStreamsIntoRows fourStreams)[0]? = some [nameA, nameB] ∧
    wlookup (separatorOnResize [nameA, nameB] 0 d (initializeWidths fourStreams))
      nameA = some 15 ∧
    renderedRowWidths [nameA, nameB]
      (separatorOnResize [nameA, nameB] 0 d (initializeWidths fourStreams)) =
      [15, 85] ∧
    ∀ d' : ℚ, ∀ w,
      wlookup (separatorOnResize [nameA, nameB] 0 d' (initializeWidths fourStreams))
        nameA = some w →
      15 ≤ w ∧ w ≤ 75 ∧ 100 - w ≤ 85 := by
  have hinit : wlookup (initializeWidths fourStreams) nameA = some 50 := by
    rw [wlookup_initializeWidths]
    norm_num [fourStreams, getGridCols]
  have hroute : ∀ d' : ℚ,
      separatorOnResize [nameA, nameB] 0 d' (initializeWidths fourStreams) =
        handleStreamResizeWithAutoFill nameA d' (initializeWidths fourStreams) :=
    fun _ => rfl
  have hauto : handleStreamResizeWithAutoFill nameA d (initializeWidths fourStreams) =
      setW (initializeWidths fourStreams) nameA 15 := by
    simp only [handleStreamResizeWithAutoFill, hinit, Option.getD_some]
    have hmin : min (50 + d) 75 = 50 + d := min_eq_left (by linarith)
    have hmax : max 15 (50 + d) = (15 : ℚ) := max_eq_left (by linarith)
    rw [hmin, hmax]
    rw [if_pos]
    rw [show |(15 : ℚ) - 50| = 35 by
      rw [abs_of_neg (by norm_num)]
      norm_num]
    norm_num
  refine ⟨by decide, ?_, ?_, ?_⟩
  · rw [hroute, hauto]
    exact wlookup_setW_self _ _ _
  · rw [hroute, hauto]
    have hlook : wlookup (setW (initializeWidths fourStreams) nameA 15) nameA =
        some 15 := wlookup_setW_self _ _ _
    norm_num [renderedRowWidths, hlook, orDefault]
  · intro d' w hw
    rw [hroute] at hw
    simp only [handleStreamResizeWithAutoFill, hinit, Option.getD_some] at hw
    split_ifs at hw with h
    · rw [wlookup_setW_self] at hw
      obtain rfl : max 15 (min (50 + d') 75) = w := Option.some.inj hw
      refine ⟨le_max_left _ _, max_le (by norm_num) (min_le_right _ _), ?_⟩
      have : (15 : ℚ) ≤ max 15 (min (50 + d') 75) := le_max_left _ _
      linarith
    · rw [hinit] at hw
      obtain rfl : (50 : ℚ) = w := Option.some.inj hw
      norm_num

/-- Witness for C7: a drag of -40 percentage points on the first separator. -/
theorem fourPane_first_row_clamp_witness :
    (organizeStreamsIntoRows fourStreams)[0]? = some [nameA, nameB] ∧
    wlookup
      (separatorOnResize [nameA, nameB] 0 (-40) (initializeWidths fourStreams))
      nameA = some 15 ∧
    renderedRowWidths [nameA, nameB]
      (separatorOnResize [nameA, nameB] 0 (-40) (initializeWidths fourStreams)) =
      [15, 85] ∧
    ∀ d' : ℚ, ∀ w,
      wlookup (separatorOnResize [nameA, nameB] 0 d' (initializeWidths fourStreams))
        nameA = some w →
      15 ≤ w ∧ w ≤ 75 ∧ 100 - w ≤ 85 :=
  fourPane_first_row_clamp (-40) (by norm_num)

/-- Evaluation of a zero-delta resize whose left identity is absent from the
ledger: the missing width reads as 0, the first clamp raises the left side to
15 and moves the 15 points onto the right side. -/
theorem handleStreamResize_unknown_left (prev : Ledger) (L R : String) (r : ℚ)
    (hL : wlookup prev L = none) (hR : wlookup prev R = some r)
    (hr1 : 30 ≤ r) (hr2 : r ≤ 85) :
    handleStreamResize L R 0 prev = setW (setW prev L 15) R (r - 15) := by
  have hadj : resizeAdjust 0 r 0 = (15, r - 15) := by
    simp only [resizeAdjust]
    norm_num
    split_ifs <;> simp_all <;> linarith
  simp only [handleStreamResize, hL, hR, Option.getD_none, Option.getD_some, hadj]
  have habs : |(15 : ℚ) - 0| = 15 := by
    rw [sub_zero]
    exact abs_of_nonneg (by norm_num)
  rw [habs]
  split_ifs with hg
  · rfl
  · exact absurd ⟨by norm_num, by norm_num, by linarith, by linarith, by norm_num⟩ hg

/-- Counterexample to claim C8 as stated: a resize naming the unknown left
identity alice against bob (width 50) is not a no-op: the ledger changes and
an entry alice ↦ 15 is created (alice's missing width reads as 0, the clamp
raises it to 15, and the 15 points are taken from bob). -/
theorem unknown_id_resize_counterexample :
    wlookup [(nameB, (50 : ℚ))] nameA = none ∧
    wlookup (handleStreamResize nameA nameB 0 [(nameB, 50)]) nameA = some 15 ∧
    wlookup (handleStreamResize nameA nameB 0 [(nameB, 50)]) nameB = some 35 ∧
    handleStreamResize nameA nameB 0 [(nameB, 50)] ≠ [(nameB, 50)] := by
  have h := handleStreamResize_unknown_left [(nameB, 50)] nameA nameB 50
    (by decide) (by decide) (by norm_num) (by norm_num)
  have hA : wlookup (handleStreamResize nameA nameB 0 [(nameB, 50)]) nameA =
      some 15 := by
    rw [h, wlookup_setW_ne _ _ _ _ (by decide), wlookup_setW_self]
  refine ⟨by decide, hA, ?_, ?_⟩
  · rw [h, wlookup_setW_self]
    norm_num
  · intro heq
    rw [heq] at hA
    exact absurd hA (by decide)

/-- Claim C8 (amended): a resize call whose left identity is absent from the
ledger is not ignored: the missing width reads as 0 and is clamped up to 15,
an entry is created for the unknown identity, and 15 points are deducted from
the right pane (whenever the adjusted pair passes the [15, 85] guard, e.g. for
a zero delta and a right width in [30, 85]); a reorder event with no drop
target, or dropped on itself, does leave the pane order unchanged. -/
theorem unknown_id_resize_amended (prev : Ledger) (L R : String) (r : ℚ)
    (hne : L ≠ R) (hL : wlookup prev L = none) (hR : wlookup prev R = some r)
    (hr1 : 30 ≤ r) (hr2 : r ≤ 85) (streams : List String) (activeId : String) :
    wlookup (handleStreamResize L R 0 prev) L = some 15 ∧
    wlookup (handleStreamResize L R 0 prev) R = some (r - 15) ∧
    handleDragEnd streams activeId none = streams ∧
    handleDragEnd streams activeId (some activeId) = streams := by
  have hmain := handleStreamResize_unknown_left prev L R r hL hR hr1 hr2
  refine ⟨?_, ?_, rfl, by simp [handleDragEnd]⟩
  · rw [hmain, wlookup_setW_ne _ _ _ _ hne, wlookup_setW_self]
  · rw [hmain, wlookup_setW_self]

/-- Witness for the amended C8: alice unknown, bob at 50, zero delta. -/
theorem unknown_id_resize_amended_witness :
    wlookup (handleStreamResize nameA nameB 0 [(nameB, 50)]) nameA = some 15 ∧
    wlookup (handleStreamResize nameA nameB 0 [(nameB, 50)]) nameB =
      some (50 - 15) ∧
    handleDragEnd [nameA, nameB] nameA none = [nameA, nameB] ∧
    handleDragEnd [nameA, nameB] nameA (some nameA) = [nameA, nameB] :=
  unknown_id_resize_amended [(nameB, 50)] nameA nameB 50 (by decide) (by decide)
    (by decide) (by norm_num) (by norm_num) [nameA, nameB] nameA

end Multitwitch
